import Mathlib

/-!
Shallow embedding of the oneDNN x64 post-ops injector subsystem:
`src/cpu/x64/injectors/jit_uni_postops_injector.cpp` and the fused epilogue
kernel in `src/cpu/x64/jit_gemm_convolution_utils.cpp`.  Code-generation
state (running auxiliary-data offsets, emitted compute/store steps, stack
adjustments) is modelled as explicit state passed through folds over the
post-op chain; the JIT-emitted runtime loop is modelled as the trace of
iterations it performs for a given length.
-/

namespace PostOpsInjector

/-- Algorithm kinds relevant to the embedded code paths (`alg_kind_t`).
Quantization entries distinguish `quantization_quantize_dequantize` from
plain quantize; depthwise entries distinguish `depthwise_prelu`. -/
inductive alg_kind where
  | quantization_quantize_dequantize
  | quantization_quantize
  | depthwise_prelu
  | depthwise_scale_shift
  deriving DecidableEq, Repr

/-- Destination data types used by the rounding decision (`dnnl_data_type_t`). -/
inductive data_type where
  | f32
  | s32
  | s8
  | u8
  | bf16
  deriving DecidableEq, Repr

/-- A post-op chain entry (`dnnl_post_ops::entry_t`), as a tagged variant.
`memStep` on depthwise/quantization entries models the corresponding
sub-generator's `memoryStep()` (bytes of auxiliary data consumed), which the
injector reads back from the sub-generator it constructed for that entry.
`other` models any primitive kind not handled by a dedicated branch of
`compute_vector_range` (e.g. `sum`-like kinds reaching the injector), keyed
by its `dnnl_primitive_kind_t` numeric value. -/
inductive post_op_entry where
  | sum (scale : Rat) (zero_point : Int)
  | eltwise (alg : Nat) (alpha : Rat) (beta : Rat)
  | binary (alg : Nat)
  | prelu
  | depthwise (alg : alg_kind) (memStep : Nat)
  | quantization (alg : alg_kind) (memStep : Nat)
  | other (kind : Nat)
  deriving DecidableEq, Repr

instance : Inhabited post_op_entry := ⟨post_op_entry.other 0⟩

/-- `entry_t::is_eltwise()` -/
def post_op_entry.is_eltwise : post_op_entry → Bool
  | .eltwise _ _ _ => true
  | _ => false

/-- `entry_t::is_like_binary()` (binary or prelu) -/
def post_op_entry.is_like_binary : post_op_entry → Bool
  | .binary _ => true
  | .prelu => true
  | _ => false

/-- `entry_t::is_binary()` -/
def post_op_entry.is_binary : post_op_entry → Bool
  | .binary _ => true
  | _ => false

/-- `entry_t::is_depthwise()` -/
def post_op_entry.is_depthwise : post_op_entry → Bool
  | .depthwise _ _ => true
  | _ => false

/-- `entry_t::is_quantization()` -/
def post_op_entry.is_quantization : post_op_entry → Bool
  | .quantization _ _ => true
  | _ => false

/-- `entry_t::is_sum(false, false)`: any sum entry matches. -/
def post_op_entry.is_sum : post_op_entry → Bool
  | .sum _ _ => true
  | _ => false

/-- `memoryStep()` of the sub-generator an entry gives rise to; entries
without a depthwise/quantization sub-generator consume no auxiliary data. -/
def post_op_entry.memoryStep : post_op_entry → Nat
  | .depthwise _ m => m
  | .quantization _ m => m
  | _ => 0

/-- `do_dequantization` for a quantization entry:
`post_op.quantization.alg == alg_kind::quantization_quantize_dequantize`. -/
def post_op_entry.do_dequantization : post_op_entry → Bool
  | .quantization a _ => a = alg_kind.quantization_quantize_dequantize
  | _ => false

/-! ## `compute_vector_range` (jit_uni_postops_injector.cpp:352-456)

The emission pass over the chain is modelled as a fold producing, per entry,
one `emit_action` (which sub-generator call the injector emits, with the
arguments that depend on the mutable loop state) together with the updated
loop state `(rhs_arg_idx, quantization_inj_idx, depthwise_inj_idx,
post_ops_data_offset)`. -/

/-- The mutable local state of one `compute_vector_range` call. -/
structure cvr_state where
  rhs_arg_idx : Nat
  quantization_inj_idx : Nat
  depthwise_inj_idx : Nat
  post_ops_data_offset : Nat
  deriving DecidableEq, Repr

/-- Initial state: all four locals start at 0. -/
def cvr_state.init : cvr_state := ⟨0, 0, 0, 0⟩

/-- The per-entry action `compute_vector_range` emits.  `quantization_compute`
records the auxiliary-data offset used to form the argument base address and
the `do_rounding` flag passed to `compute_input_scale_shift`;
`lambda_call` records invocation of a registered lambda injector; `nop`
records that an unrecognized entry with no registered lambda emitted
nothing. -/
inductive emit_action where
  | eltwise_compute (entry_idx : Nat)
  | binary_compute (rhs_arg_idx : Nat)
  | depthwise_compute (inj_idx : Nat) (arg_offset : Nat)
  | quantization_compute (inj_idx : Nat) (arg_offset : Nat) (do_rounding : Bool)
  | lambda_call (kind : Nat)
  | nop
  deriving DecidableEq, Repr

/-- One iteration of the entry loop of `compute_vector_range`
(lines 363-455): `n` is `post_ops_.len()`, `i` the loop index, `dst_dt` the
`qdp.dst_dt` field, and `lambdas` the key set of `lambda_jit_injectors_`. -/
def cvr_entry (dst_dt : data_type) (lambdas : List Nat) (n : Nat)
    (e : post_op_entry) (i : Nat) (st : cvr_state) : emit_action × cvr_state :=
  match e with
  | .eltwise _ _ _ => (.eltwise_compute i, st)
  | .binary _ =>
      (.binary_compute st.rhs_arg_idx, { st with rhs_arg_idx := st.rhs_arg_idx + 1 })
  | .prelu =>
      (.binary_compute st.rhs_arg_idx, { st with rhs_arg_idx := st.rhs_arg_idx + 1 })
  | .depthwise _ m =>
      (.depthwise_compute st.depthwise_inj_idx st.post_ops_data_offset,
        { st with
            post_ops_data_offset := st.post_ops_data_offset + m
            rhs_arg_idx := st.rhs_arg_idx + 1
            depthwise_inj_idx := st.depthwise_inj_idx + 1 })
  | .quantization a m =>
      let do_deq : Bool := a = alg_kind.quantization_quantize_dequantize
      let do_rounding : Bool := do_deq || dst_dt = data_type.f32 || i ≠ n - 1
      (.quantization_compute st.quantization_inj_idx st.post_ops_data_offset do_rounding,
        { st with
            post_ops_data_offset := st.post_ops_data_offset + m
            rhs_arg_idx := st.rhs_arg_idx + 1
            quantization_inj_idx := st.quantization_inj_idx + 1 })
  | .sum _ _ => (.nop, st)
  | .other k =>
      if lambdas.contains k then (.lambda_call k, st) else (.nop, st)

/-- The entry loop of `compute_vector_range`, processing the remaining
entries starting at loop index `i`, threading the local state. -/
def cvr_go (dst_dt : data_type) (lambdas : List Nat) (n : Nat) :
    List post_op_entry → Nat → cvr_state → List emit_action × cvr_state
  | [], _, st => ([], st)
  | e :: rest, i, st =>
      let p := cvr_entry dst_dt lambdas n e i st
      let q := cvr_go dst_dt lambdas n rest (i + 1) p.2
      (p.1 :: q.1, q.2)

/-- `compute_vector_range(vmm_idxs, rhs_arg_params, ddp, qdp)`: run the
entry loop over the whole chain from loop index 0 and the zeroed state. -/
def compute_vector_range (dst_dt : data_type) (lambdas : List Nat)
    (post_ops : List post_op_entry) : List emit_action × cvr_state :=
  cvr_go dst_dt lambdas post_ops.length post_ops 0 cvr_state.init

/-- Sum of `memoryStep()` over the depthwise/quantization entries of a chain
segment (the spec's auxiliary-offset invariant quantity). -/
def mem_step_sum (l : List post_op_entry) : Nat :=
  l.foldr (fun e acc =>
    (if e.is_depthwise || e.is_quantization then e.memoryStep else 0) + acc) 0

/-! ## Validity checker `post_ops_ok` (jit_uni_postops_injector.cpp:551-627) -/

/-- `post_op_type` as consumed by `post_ops_ok` (`accepted_post_op_types`). -/
inductive post_op_type where
  | sum
  | eltwise
  | binary
  | prelu
  | depthwise
  | quantization
  deriving DecidableEq, Repr

/-- ISA tiers appearing in the injector sources (`cpu_isa_t`), restricted to
the tiers this file instantiates. -/
inductive cpu_isa_t where
  | sse41
  | avx
  | avx2
  | avx2_vnni_2
  | avx512_core
  | avx512_core_bf16
  | avx512_core_fp16
  deriving DecidableEq, Repr, Fintype

/-- Position of a tier in the capability ordering of the tiers above. -/
def cpu_isa_rank : cpu_isa_t → Nat
  | .sse41 => 0
  | .avx => 1
  | .avx2 => 2
  | .avx2_vnni_2 => 3
  | .avx512_core => 4
  | .avx512_core_bf16 => 5
  | .avx512_core_fp16 => 6

/-- Modelled from the spec: `is_superset(a, b)` from the ISA capability model
(`cpu_isa_traits`, not under src/), a total preorder where tier `a` includes
everything tier `b` offers; on the tiers instantiated here the ordering is
linear sse41 < avx < avx2 < avx2_vnni_2 < avx512_core < avx512_core_bf16 <
avx512_core_fp16. -/
def is_superset (a b : cpu_isa_t) : Bool := cpu_isa_rank b ≤ cpu_isa_rank a

/-- Arguments of `post_ops_ok` (`post_ops_ok_args_t`), with the external
support predicates it delegates to kept abstract:
`eltwise_supported isa alg` stands for
`eltwise_injector::is_supported(isa, alg, data_type::f32)` and
`binary_supported e` for
`binary_injector::is_supported(isa, get_src1_desc(e, *dst_d), *dst_d,
enabled_bcast_strategy)`.  `dst_specified` stands for
`dst_d != nullptr && dst_d->md_->format_kind != dnnl_format_kind_any`. -/
structure post_ops_ok_args_t where
  isa : cpu_isa_t
  accepted_post_op_types : List post_op_type
  post_ops : List post_op_entry
  dst_specified : Bool
  sum_at_pos_0_only : Bool
  sum_requires_scale_one : Bool
  sum_requires_zp_zero : Bool
  sum_requires_same_params : Bool
  eltwise_supported : cpu_isa_t → Nat → Bool
  binary_supported : post_op_entry → Bool

/-- `post_ops.find(primitive_kind::sum)` followed by reading the first sum
entry's scale/zero-point: returns the canonical pair when a sum entry
exists. -/
def find_first_sum : List post_op_entry → Option (Rat × Int)
  | [] => none
  | .sum s z :: _ => some (s, z)
  | _ :: rest => find_first_sum rest

/-- `sum_scale`: first sum entry's scale, or 0 when the chain has no sum. -/
def canonical_sum_scale (l : List post_op_entry) : Rat :=
  ((find_first_sum l).map Prod.fst).getD 0

/-- `sum_zero_point`: first sum entry's zero-point, or 0 without a sum. -/
def canonical_sum_zero_point (l : List post_op_entry) : Int :=
  ((find_first_sum l).map Prod.snd).getD 0

/-- The body of `case sum:` in `is_accepted_postop` once `entry.is_sum(false,
false)` holds (lines 584-596): the sequence of policy rejections ending in
`IMPLICATION(sum_at_pos_0_only, idx == 0)`. -/
def sum_entry_check (args : post_ops_ok_args_t) (sum_scale : Rat)
    (sum_zero_point : Int) (idx : Nat) (s : Rat) (z : Int) : Bool :=
  if args.sum_requires_same_params ∧ s ≠ sum_scale then false
  else if args.sum_requires_same_params ∧ z ≠ sum_zero_point then false
  else if args.sum_requires_scale_one ∧ s ≠ 1 then false
  else if args.sum_requires_zp_zero ∧ z ≠ 0 then false
  else !args.sum_at_pos_0_only || idx == 0

/-- The `for (const auto &post_op : accepted_post_op_types)` loop inside
`is_accepted_postop` (lines 579-620): each accepted type is tried in order;
a type whose guard matches the entry returns its verdict, otherwise the
loop continues; falling off the end returns false. -/
def accepted_go (args : post_ops_ok_args_t) (sum_scale : Rat)
    (sum_zero_point : Int) (idx : Nat) (entry : post_op_entry) :
    List post_op_type → Bool
  | [] => false
  | t :: rest =>
    match t with
    | .sum =>
        match entry with
        | .sum s z => sum_entry_check args sum_scale sum_zero_point idx s z
        | _ => accepted_go args sum_scale sum_zero_point idx entry rest
    | .eltwise =>
        match entry with
        | .eltwise alg _ _ => args.eltwise_supported args.isa alg
        | _ => accepted_go args sum_scale sum_zero_point idx entry rest
    | .binary =>
        if entry.is_like_binary then args.binary_supported entry
        else accepted_go args sum_scale sum_zero_point idx entry rest
    | .prelu =>
        if entry.is_like_binary then args.binary_supported entry
        else accepted_go args sum_scale sum_zero_point idx entry rest
    | .depthwise =>
        if entry.is_depthwise then true
        else accepted_go args sum_scale sum_zero_point idx entry rest
    | .quantization =>
        if entry.is_quantization then true
        else accepted_go args sum_scale sum_zero_point idx entry rest

/-- `is_accepted_postop(idx)` (lines 579-620). -/
def is_accepted_postop (args : post_ops_ok_args_t) (idx : Nat) : Bool :=
  accepted_go args (canonical_sum_scale args.post_ops)
    (canonical_sum_zero_point args.post_ops) idx
    (args.post_ops.getD idx default) args.accepted_post_op_types

/-- `post_ops_ok` (lines 551-627): rejects an unspecified destination
layout, then requires every chain position to pass `is_accepted_postop`. -/
def post_ops_ok (args : post_ops_ok_args_t) : Bool :=
  args.dst_specified
    && (List.range args.post_ops.length).all (fun i => is_accepted_postop args i)

/-! ## Orchestrator construction (jit_uni_postops_injector.cpp:86-145) -/

/-- What the chain loop of the top-level constructor accumulates: one
eltwise injector per eltwise entry, one depthwise injector per depthwise
entry, one quantization injector per quantization entry, and the
`is_eltwise` / `is_like_binary` flags (a single shared binary injector is
built afterwards iff `is_like_binary`). -/
structure injector_scan_t where
  eltwise_count : Nat
  depthwise_count : Nat
  quantization_count : Nat
  is_eltwise : Bool
  is_like_binary : Bool
  deriving DecidableEq, Repr

/-- One iteration of the constructor's chain loop (lines 103-131). -/
def injector_scan_step (st : injector_scan_t) (e : post_op_entry) :
    injector_scan_t :=
  match e with
  | .eltwise _ _ _ =>
      { st with eltwise_count := st.eltwise_count + 1, is_eltwise := true }
  | .binary _ => { st with is_like_binary := true }
  | .prelu => { st with is_like_binary := true }
  | .depthwise _ _ => { st with depthwise_count := st.depthwise_count + 1 }
  | .quantization _ _ =>
      { st with quantization_count := st.quantization_count + 1 }
  | _ => st

/-- The constructor's chain loop over the whole chain. -/
def injector_scan (l : List post_op_entry) : injector_scan_t :=
  l.foldl injector_scan_step ⟨0, 0, 0, false, false⟩

/-- Static configuration relevant to the constructor's mask-register
assertion (lines 133-139): whether `is_superset(isa, avx512_core)`, whether
`binary_static_params.rhs_arg_static_params.tail_size` is non-zero, and the
register indices of `eltwise_static_params.k_mask_` and of
`rhs_arg_static_params.tail_opmask`. -/
structure injector_static_config_t where
  is_superset_avx512_core : Bool
  binary_tail_size_nonzero : Bool
  eltwise_k_mask : Nat
  binary_tail_opmask : Nat
  deriving DecidableEq, Repr

/-- The condition under which the constructor's assertion fires: eltwise and
binary/prelu entries coexist on a masked-vector ISA with a binary tail and
the two injectors were handed the same opmask register. -/
def mask_contract_violated (cfg : injector_static_config_t)
    (st : injector_scan_t) : Bool :=
  cfg.is_superset_avx512_core && st.is_eltwise && st.is_like_binary
    && cfg.binary_tail_size_nonzero
    && (cfg.eltwise_k_mask == cfg.binary_tail_opmask)

/-- The top-level constructor (lines 86-145): scans the chain, fails (fatal
assertion) on the mask-register contract violation, otherwise succeeds with
the accumulated sub-generators. -/
def construct_injector (cfg : injector_static_config_t)
    (l : List post_op_entry) : Option injector_scan_t :=
  let st := injector_scan l
  if mask_contract_violated cfg st then none else some st

/-- Total number of sub-generators the constructed orchestrator owns: one
per eltwise/depthwise/quantization entry plus the single shared binary
injector when any binary/prelu entry is present. -/
def sub_generator_count (st : injector_scan_t) : Nat :=
  st.eltwise_count + st.depthwise_count + st.quantization_count
    + (if st.is_like_binary then 1 else 0)

/-! ## ISA/width dispatcher `create` (jit_uni_postops_injector.cpp:220-258)

The Ymm specialization of `jit_uni_postops_injector_base_t<Vmm>::create`.
Returning `some t` models `new jit_uni_postops_injector_t<t, Xbyak::Ymm>`;
`none` models the final `return nullptr`. -/

/-- The fixed priority-ordered tier list used by both the exact-match block
and the `mayiuse` fallback block of the Ymm `create`. -/
def ymm_tier_list : List cpu_isa_t :=
  [.avx512_core_fp16, .avx512_core, .avx2_vnni_2, .avx2, .avx]

/-- `jit_uni_postops_injector_base_t<Xbyak::Ymm>::create`: the
`CASE_EXACT_MATCH` chain over `ymm_tier_list` followed by the
`CASE_MAYIUSE` chain over the same list, then `nullptr`. -/
def create_ymm (mayiuse : cpu_isa_t → Bool) (isa : cpu_isa_t) :
    Option cpu_isa_t :=
  if isa = .avx512_core_fp16 then some .avx512_core_fp16
  else if isa = .avx512_core then some .avx512_core
  else if isa = .avx2_vnni_2 then some .avx2_vnni_2
  else if isa = .avx2 then some .avx2
  else if isa = .avx then some .avx
  else if mayiuse .avx512_core_fp16 then some .avx512_core_fp16
  else if mayiuse .avx512_core then some .avx512_core
  else if mayiuse .avx2_vnni_2 then some .avx2_vnni_2
  else if mayiuse .avx2 then some .avx2
  else if mayiuse .avx then some .avx
  else none

/-! ## Fused epilogue kernel loop (jit_gemm_convolution_utils.cpp:369-400)

The runtime behaviour of the code emitted by `jit_pp_kernel_t<isa>::generate`
for a given `len`, as the list of compute iterations it performs.  A `full`
iteration is `compute(false)` over a whole vector at destination index
`base`; a `tail` iteration is `compute(true)` with `active` lanes enabled in
the lane mask. -/

/-- The ISA tiers `jit_pp_kernel_create` instantiates. -/
inductive pp_isa where
  | avx512_core
  | avx2
  | sse41
  deriving DecidableEq, Repr

/-- One iteration of the emitted epilogue loop. -/
inductive pp_iter where
  | full (base : Nat)
  | tail (base : Nat) (active : Nat)
  deriving DecidableEq, Repr

/-- The tail block (lines 385-398): on avx512_core the remainder mask
`(1 << len) - 1` is tested and a zero mask jumps to `loop_end` before
`compute(true)`; on avx2/sse41 the mask is loaded from the ones/zeros table
(giving `len` active lanes, possibly zero) and `compute(true)` runs
unconditionally. -/
def pp_tail_part (isa : pp_isa) (len base : Nat) : List pp_iter :=
  match isa with
  | .avx512_core => if len = 0 then [] else [.tail base len]
  | _ => [.tail base len]

/-- The main loop (lines 377-384): while `vlen ≤ len`, `compute(false)` and
advance; then fall through to the tail block.  `fuel` bounds the iteration
count (the loop consumes at least one unit of `len` per round whenever
`0 < vlen`, so `fuel = len` suffices). -/
def pp_loop (isa : pp_isa) (vlen : Nat) :
    Nat → Nat → Nat → List pp_iter
  | 0, len, base => pp_tail_part isa len base
  | fuel + 1, len, base =>
    if vlen ≤ len then
      pp_iter.full base :: pp_loop isa vlen fuel (len - vlen) (base + vlen)
    else pp_tail_part isa len base

/-- The whole emitted loop nest (lines 369-400): `len = 0` jumps straight to
`loop_end` (no iteration at all); otherwise run the main loop and tail. -/
def pp_kernel_trace (isa : pp_isa) (vlen len : Nat) : List pp_iter :=
  if len = 0 then [] else pp_loop isa vlen len len 0

/-- Destination indices one iteration stores to: a full iteration writes one
whole vector; a tail iteration's masked store (`vmovups` under `k`-mask,
`vmaskmovps`, or `maskmovdqu`) writes exactly the active lanes. -/
def iter_writes (vlen : Nat) : pp_iter → List Nat
  | .full base => (List.range vlen).map (fun j => base + j)
  | .tail base a => (List.range a).map (fun j => base + j)

/-- All destination indices an execution of the kernel writes. -/
def trace_writes (vlen : Nat) (tr : List pp_iter) : List Nat :=
  tr.flatMap (iter_writes vlen)

/-! ## Stack acquisition/release (jit_uni_postops_injector.cpp:508-533) -/

/-- The counting loop of `push_post_ops_data_on_stack` (lines 511-515):
number of depthwise/quantization entries in the chain
(`post_ops_pointers_count`). -/
def post_ops_pointers_count (l : List post_op_entry) : Nat :=
  l.foldl
    (fun c e => if e.is_depthwise || e.is_quantization then c + 1 else c) 0

/-- Stack-manipulating instructions the acquisition/release emit.  `sub_rsp`
/`add_rsp` record the byte amount; `copy_slot i` records the copy of one
auxiliary-table pointer into stack slot `i`. -/
inductive stack_op where
  | sub_rsp (bytes : Nat)
  | copy_slot (slot : Nat)
  | add_rsp (bytes : Nat)
  deriving DecidableEq, Repr

/-- `push_post_ops_data_on_stack` (lines 508-526): when the count is
non-zero, reserve `count * sizeof(float*)` bytes (sizeof(float*) = 8) and
copy one pointer per slot; when zero, emit nothing. -/
def push_post_ops_data_on_stack (l : List post_op_entry) : List stack_op :=
  let n := post_ops_pointers_count l
  if n ≠ 0 then
    stack_op.sub_rsp (n * 8) :: (List.range n).map stack_op.copy_slot
  else []

/-- `reset_stack_pointer` (lines 528-533): when the count is non-zero, give
back `count * sizeof(float*)` bytes; when zero, emit nothing. -/
def reset_stack_pointer (l : List post_op_entry) : List stack_op :=
  let n := post_ops_pointers_count l
  if n ≠ 0 then [stack_op.add_rsp (n * 8)] else []

/-- Signed effect of one stack op on `rsp`. -/
def stack_op_delta : stack_op → Int
  | .sub_rsp b => -(b : Int)
  | .add_rsp b => (b : Int)
  | .copy_slot _ => 0

/-- Net effect of a sequence of stack ops on `rsp`. -/
def stack_delta (ops : List stack_op) : Int :=
  (ops.map stack_op_delta).sum

/-- Total bytes reserved (summed over `sub_rsp` ops). -/
def reserved_bytes (ops : List stack_op) : Nat :=
  ops.foldr (fun o acc => match o with | .sub_rsp b => b + acc | _ => acc) 0

/-- Total bytes released (summed over `add_rsp` ops). -/
def released_bytes (ops : List stack_op) : Nat :=
  ops.foldr (fun o acc => match o with | .add_rsp b => b + acc | _ => acc) 0

/-- Stack slots written by pointer copies, in emission order. -/
def copied_slots (ops : List stack_op) : List Nat :=
  ops.foldr (fun o acc => match o with | .copy_slot i => i :: acc | _ => acc) []

/-! ## `aux_vec_count` (jit_uni_postops_injector.cpp:26-49) -/

/-- The loop of `aux_vec_count` with accumulator `res`, the
`CASE_ELTWISE_SUPERSET` macro expanded: per eltwise entry the first tier
among avx512_core, avx2, sse41 of which `isa` is a superset contributes
`jit_uni_eltwise_injector<tier>::aux_vecs_count(alg, is_fwd, alpha)`
(abstracted as `cnt tier alg is_fwd alpha`) via `max`; other entries are
skipped. -/
def aux_vec_count_go (cnt : cpu_isa_t → Nat → Bool → Rat → Nat)
    (isa : cpu_isa_t) (is_fwd : Bool) :
    List post_op_entry → Nat → Nat
  | [], res => res
  | e :: rest, res =>
    match e with
    | .eltwise alg alpha _ =>
        if is_superset isa .avx512_core then
          aux_vec_count_go cnt isa is_fwd rest
            (max res (cnt .avx512_core alg is_fwd alpha))
        else if is_superset isa .avx2 then
          aux_vec_count_go cnt isa is_fwd rest
            (max res (cnt .avx2 alg is_fwd alpha))
        else if is_superset isa .sse41 then
          aux_vec_count_go cnt isa is_fwd rest
            (max res (cnt .sse41 alg is_fwd alpha))
        else aux_vec_count_go cnt isa is_fwd rest res
    | _ => aux_vec_count_go cnt isa is_fwd rest res

/-- `aux_vec_count(post_ops, isa, is_fwd)`: the loop started at `res = 0`. -/
def aux_vec_count (cnt : cpu_isa_t → Nat → Bool → Rat → Nat)
    (post_ops : List post_op_entry) (isa : cpu_isa_t) (is_fwd : Bool) : Nat :=
  aux_vec_count_go cnt isa is_fwd post_ops 0

/-- The highest tier among avx512_core, avx2, sse41 of which `isa` is a
superset (the tier the `CASE_ELTWISE_SUPERSET` chain selects). -/
def eltwise_tier (isa : cpu_isa_t) : cpu_isa_t :=
  if is_superset isa .avx512_core then .avx512_core
  else if is_superset isa .avx2 then .avx2
  else .sse41

/-- Per-eltwise-entry auxiliary vector counts of a chain, at the tier the
loop selects for `isa`. -/
def eltwise_aux_list (cnt : cpu_isa_t → Nat → Bool → Rat → Nat)
    (isa : cpu_isa_t) (is_fwd : Bool) (l : List post_op_entry) : List Nat :=
  l.filterMap (fun e =>
    match e with
    | .eltwise alg alpha _ => some (cnt (eltwise_tier isa) alg is_fwd alpha)
    | _ => none)

/-! ## Derived views of the emission trace, and concrete instances -/

/-- The local state of `compute_vector_range` after processing the prefix of
length `k` of the chain (the loop counter having advanced to `k`). -/
def cvr_state_after (dst_dt : data_type) (lambdas : List Nat)
    (chain : List post_op_entry) (k : Nat) : cvr_state :=
  (cvr_go dst_dt lambdas chain.length (chain.take k) 0 cvr_state.init).2

/-- The action `compute_vector_range` emits for the chain entry at
position `i`. -/
def trace_action (dst_dt : data_type) (lambdas : List Nat)
    (chain : List post_op_entry) (i : Nat) : emit_action :=
  (compute_vector_range dst_dt lambdas chain).1.getD i emit_action.nop

/-- The `do_rounding` flag of a quantization action, when the action is
one. -/
def action_rounding : emit_action → Option Bool
  | .quantization_compute _ _ r => some r
  | _ => none

/-- A mixed chain exercising the auxiliary-offset bookkeeping. -/
def c2_chain : List post_op_entry :=
  [.eltwise 2 1 0, .depthwise .depthwise_prelu 4,
   .quantization .quantization_quantize_dequantize 8, .binary 1,
   .quantization .quantization_quantize 16]

/-- `post_ops_ok` arguments for the two-sum chain
`[sum(scale=1.0, zp=0), sum(scale=2.0, zp=0)]` with only the same-params
policy varying (`sp`), the other sum policies inactive, and a specified
destination layout. -/
def c3_args (sp : Bool) : post_ops_ok_args_t where
  isa := .avx2
  accepted_post_op_types := [.sum]
  post_ops := [.sum 1 0, .sum 2 0]
  dst_specified := true
  sum_at_pos_0_only := false
  sum_requires_scale_one := false
  sum_requires_zp_zero := false
  sum_requires_same_params := sp
  eltwise_supported := fun _ _ => true
  binary_supported := fun _ => true

/-- `post_ops_ok` arguments accepting the single-entry chain `[sum]`
(all sum policies inactive, destination layout specified). -/
def c4_args : post_ops_ok_args_t where
  isa := .avx2
  accepted_post_op_types := [.sum]
  post_ops := [.sum 1 0]
  dst_specified := true
  sum_at_pos_0_only := false
  sum_requires_scale_one := false
  sum_requires_zp_zero := false
  sum_requires_same_params := false
  eltwise_supported := fun _ _ => true
  binary_supported := fun _ => true

/-- A static configuration that does not violate the constructor's
mask-register contract. -/
def c4_cfg : injector_static_config_t :=
  ⟨true, true, 1, 2⟩

/-- A runtime capability probe supporting only the avx2 tier. -/
def c5_mayiuse : cpu_isa_t → Bool :=
  fun t => t = cpu_isa_t.avx2

/-- A chain with one depthwise and one quantization entry (two auxiliary
pointers). -/
def c8_chain : List post_op_entry :=
  [.depthwise .depthwise_scale_shift 8, .eltwise 0 0 0,
   .quantization .quantization_quantize 24]

/-- A per-tier eltwise auxiliary-vector count used to instantiate the
abstract `aux_vecs_count` in witnesses. -/
def c10_cnt : cpu_isa_t → Nat → Bool → Rat → Nat :=
  fun t alg _ _ => cpu_isa_rank t + alg

/-! ## Theorems -/

theorem mem_step_sum_cons (e : post_op_entry) (l : List post_op_entry) :
    mem_step_sum (e :: l)
      = (if e.is_depthwise || e.is_quantization then e.memoryStep else 0)
          + mem_step_sum l := rfl

theorem cvr_entry_offset (d : data_type) (lam : List Nat) (n : Nat)
    (e : post_op_entry) (i : Nat) (st : cvr_state) :
    (cvr_entry d lam n e i st).2.post_ops_data_offset
      = st.post_ops_data_offset
          + (if e.is_depthwise || e.is_quantization then e.memoryStep else 0) := by
  cases e <;>
    simp [cvr_entry, post_op_entry.is_depthwise, post_op_entry.is_quantization,
      post_op_entry.memoryStep]
  case other k => split <;> rfl

theorem cvr_go_offset (d : data_type) (lam : List Nat) (n : Nat) :
    ∀ (l : List post_op_entry) (i : Nat) (st : cvr_state),
    (cvr_go d lam n l i st).2.post_ops_data_offset
      = st.post_ops_data_offset + mem_step_sum l := by
  intro l
  induction l with
  | nil => intro i st; simp [cvr_go, mem_step_sum]
  | cons e rest ih =>
      intro i st
      show (cvr_go d lam n rest (i + 1) (cvr_entry d lam n e i st).2).2.post_ops_data_offset = _
      rw [ih, cvr_entry_offset, mem_step_sum_cons]
      omega

theorem cvr_go_length (d : data_type) (lam : List Nat) (n : Nat) :
    ∀ (l : List post_op_entry) (i : Nat) (st : cvr_state),
    (cvr_go d lam n l i st).1.length = l.length := by
  intro l
  induction l with
  | nil => intro i st; rfl
  | cons e rest ih =>
      intro i st
      show ((cvr_entry d lam n e i st).1 :: _).length = _
      simp [ih]

theorem cvr_go_append (d : data_type) (lam : List Nat) (n : Nat) :
    ∀ (l1 l2 : List post_op_entry) (i : Nat) (st : cvr_state),
    cvr_go d lam n (l1 ++ l2) i st
      = ((cvr_go d lam n l1 i st).1
            ++ (cvr_go d lam n l2 (i + l1.length) (cvr_go d lam n l1 i st).2).1,
         (cvr_go d lam n l2 (i + l1.length) (cvr_go d lam n l1 i st).2).2) := by
  intro l1
  induction l1 with
  | nil => intro l2 i st; simp [cvr_go]
  | cons e rest ih =>
      intro l2 i st
      have harith : i + (e :: rest).length = (i + 1) + rest.length := by
        simp [List.length_cons]; omega
      show cvr_go d lam n (e :: (rest ++ l2)) i st = _
      rw [harith]
      show ((cvr_entry d lam n e i st).1
              :: (cvr_go d lam n (rest ++ l2) (i + 1) (cvr_entry d lam n e i st).2).1,
            (cvr_go d lam n (rest ++ l2) (i + 1) (cvr_entry d lam n e i st).2).2) = _
      rw [ih]
      rfl

/-- Claim C2: in one `compute_vector_range` call the auxiliary-data byte
offset starts at 0 and after the prefix of length `k` equals the sum of
`memoryStep()` over the depthwise/quantization entries of that prefix;
entries of other kinds leave it unchanged.  The fourth conjunct certifies
that `cvr_state_after` is the actual intermediate state of the call: the
whole trace decomposes as the prefix trace followed by the suffix trace
continued from that state. -/
theorem C2_aux_offset_invariant (d : data_type) (lam : List Nat)
    (chain : List post_op_entry) (k : Nat) (hk : k ≤ chain.length) :
    (cvr_state_after d lam chain k).post_ops_data_offset
        = mem_step_sum (chain.take k)
    ∧ (cvr_state_after d lam chain 0).post_ops_data_offset = 0
    ∧ (compute_vector_range d lam chain).2.post_ops_data_offset
        = mem_step_sum chain
    ∧ (compute_vector_range d lam chain).1
        = (cvr_go d lam chain.length (chain.take k) 0 cvr_state.init).1
            ++ (cvr_go d lam chain.length (chain.drop k) k
                  (cvr_state_after d lam chain k)).1
    ∧ (∀ (e : post_op_entry) (i : Nat) (st : cvr_state),
        e.is_depthwise = false → e.is_quantization = false →
        (cvr_entry d lam chain.length e i st).2.post_ops_data_offset
          = st.post_ops_data_offset) := by
  refine ⟨?_, ?_, ?_, ?_, ?_⟩
  · rw [cvr_state_after, cvr_go_offset]
    simp [cvr_state.init]
  · rw [cvr_state_after, cvr_go_offset]
    simp [cvr_state.init, mem_step_sum]
  · rw [compute_vector_range, cvr_go_offset]
    simp [cvr_state.init]
  · have htd := List.take_append_drop k chain
    have hlen : (chain.take k).length = k := by
      simp [List.length_take]; omega
    calc (compute_vector_range d lam chain).1
        = (cvr_go d lam chain.length (chain.take k ++ chain.drop k) 0
            cvr_state.init).1 := by rw [compute_vector_range, htd]
      _ = _ := by
            rw [cvr_go_append, hlen]
            simp [cvr_state_after]
  · intro e i st hd hq
    rw [cvr_entry_offset, hd, hq]
    simp

/-- Witness for C2 at a concrete mixed chain and prefix length 3. -/
theorem C2_aux_offset_invariant_witness :
    3 ≤ c2_chain.length
    ∧ (cvr_state_after data_type.s8 [] c2_chain 3).post_ops_data_offset
        = mem_step_sum (c2_chain.take 3)
    ∧ (compute_vector_range data_type.s8 [] c2_chain).2.post_ops_data_offset
        = mem_step_sum c2_chain :=
  ⟨by decide,
   (C2_aux_offset_invariant data_type.s8 [] c2_chain 3 (by decide)).1,
   (C2_aux_offset_invariant data_type.s8 [] c2_chain 3 (by decide)).2.2.1⟩

theorem cvr_go_getD (d : data_type) (lam : List Nat) (n : Nat) :
    ∀ (l : List post_op_entry) (j i : Nat) (st : cvr_state), j < l.length →
    (cvr_go d lam n l i st).1.getD j emit_action.nop
      = (cvr_entry d lam n (l.getD j default) (i + j)
          ((cvr_go d lam n (l.take j) i st).2)).1 := by
  intro l
  induction l with
  | nil => intro j i st hj; simp at hj
  | cons e rest ih =>
      intro j i st hj
      cases j with
      | zero =>
          show ((cvr_entry d lam n e i st).1
              :: (cvr_go d lam n rest (i + 1) (cvr_entry d lam n e i st).2).1).getD 0
                emit_action.nop = _
          simp [cvr_go]
      | succ j' =>
          have hj' : j' < rest.length := by simpa using hj
          have harith : i + (j' + 1) = (i + 1) + j' := by omega
          show ((cvr_entry d lam n e i st).1
              :: (cvr_go d lam n rest (i + 1) (cvr_entry d lam n e i st).2).1).getD
                (j' + 1) emit_action.nop = _
          rw [List.getD_cons_succ,
            ih j' (i + 1) (cvr_entry d lam n e i st).2 hj', harith]
          rfl

theorem trace_action_eq (d : data_type) (lam : List Nat)
    (chain : List post_op_entry) (i : Nat) (h : i < chain.length) :
    trace_action d lam chain i
      = (cvr_entry d lam chain.length (chain.getD i default) i
          (cvr_state_after d lam chain i)).1 := by
  rw [trace_action, compute_vector_range,
    cvr_go_getD d lam chain.length chain i 0 cvr_state.init h, Nat.zero_add]
  rfl

/-- Claim C1: in the emission trace of `compute_vector_range`, a
quantization entry at position `i` of a chain of length `n` rounds before
the output scale/shift step iff it requests dequantization, or the
destination type is f32, or `i` is not the last position; in particular a
quantization entry that is not last always rounds. -/
theorem C1_quantization_rounding_policy (d : data_type) (lam : List Nat)
    (chain : List post_op_entry) (i : Nat) (a : alg_kind) (m : Nat)
    (h : i < chain.length)
    (he : chain.getD i default = post_op_entry.quantization a m) :
    (action_rounding (trace_action d lam chain i) = some true
      ↔ (a = alg_kind.quantization_quantize_dequantize ∨ d = data_type.f32
          ∨ i ≠ chain.length - 1))
    ∧ (i ≠ chain.length - 1 →
        action_rounding (trace_action d lam chain i) = some true) := by
  rw [trace_action_eq d lam chain i h, he]
  constructor
  · simp [cvr_entry, action_rounding]
    tauto
  · intro hne
    simp [cvr_entry, action_rounding, hne]

/-- Witness for C1: the quantization entry at position 2 of the concrete
chain is not last, so it rounds. -/
theorem C1_quantization_rounding_policy_witness :
    2 < c2_chain.length
    ∧ c2_chain.getD 2 default
        = post_op_entry.quantization alg_kind.quantization_quantize_dequantize 8
    ∧ action_rounding (trace_action data_type.s8 [] c2_chain 2) = some true :=
  ⟨by decide, by decide,
   (C1_quantization_rounding_policy data_type.s8 [] c2_chain 2
      alg_kind.quantization_quantize_dequantize 8 (by decide) (by decide)).2
    (by decide)⟩

/-- Claim C9: an entry whose kind has no dedicated branch dispatches to the
registered lambda injector for its kind when present and is a silent no-op
otherwise; either way the loop state (offsets, injector indices) is
untouched and every chain entry still yields exactly one trace action in
order. -/
theorem C9_unrecognized_kind_callback (d : data_type) (lam : List Nat)
    (chain : List post_op_entry) (i k : Nat)
    (h : i < chain.length)
    (he : chain.getD i default = post_op_entry.other k) :
    trace_action d lam chain i
        = (if lam.contains k then emit_action.lambda_call k else emit_action.nop)
    ∧ (∀ (j : Nat) (st : cvr_state),
        (cvr_entry d lam chain.length (post_op_entry.other k) j st).2 = st)
    ∧ (compute_vector_range d lam chain).1.length = chain.length := by
  refine ⟨?_, ?_, ?_⟩
  · rw [trace_action_eq d lam chain i h, he]
    by_cases hc : k ∈ lam <;> simp [cvr_entry, hc]
  · intro j st
    by_cases hc : k ∈ lam <;> simp [cvr_entry, hc]
  · rw [compute_vector_range, cvr_go_length]

/-- Witness for C9: kind 7 has a registered lambda and is invoked; the same
chain with no registration is a no-op. -/
theorem C9_unrecognized_kind_callback_witness :
    0 < ([post_op_entry.other 7, post_op_entry.eltwise 1 0 0] :
          List post_op_entry).length
    ∧ trace_action data_type.f32 [7]
        [post_op_entry.other 7, post_op_entry.eltwise 1 0 0] 0
        = (if ([7] : List Nat).contains 7 then emit_action.lambda_call 7
            else emit_action.nop)
    ∧ trace_action data_type.f32 []
        [post_op_entry.other 7, post_op_entry.eltwise 1 0 0] 0
        = (if ([] : List Nat).contains 7 then emit_action.lambda_call 7
            else emit_action.nop) :=
  ⟨by decide,
   (C9_unrecognized_kind_callback data_type.f32 [7]
      [post_op_entry.other 7, post_op_entry.eltwise 1 0 0] 0 7 (by decide)
      (by decide)).1,
   (C9_unrecognized_kind_callback data_type.f32 []
      [post_op_entry.other 7, post_op_entry.eltwise 1 0 0] 0 7 (by decide)
      (by decide)).1⟩

theorem accepted_go_sum (args : post_ops_ok_args_t) (ss : Rat) (szp : Int)
    (idx : Nat) (s : Rat) (z : Int) :
    ∀ (types : List post_op_type), post_op_type.sum ∈ types →
    accepted_go args ss szp idx (post_op_entry.sum s z) types
      = sum_entry_check args ss szp idx s z := by
  intro types
  induction types with
  | nil => intro hmem; simp at hmem
  | cons t rest ih =>
      intro hmem
      cases t with
      | sum => rfl
      | eltwise =>
          have : post_op_type.sum ∈ rest := by
            rcases List.mem_cons.mp hmem with h | h
            · exact absurd h (by simp)
            · exact h
          simpa [accepted_go] using ih this
      | binary =>
          have : post_op_type.sum ∈ rest := by
            rcases List.mem_cons.mp hmem with h | h
            · exact absurd h (by simp)
            · exact h
          simpa [accepted_go, post_op_entry.is_like_binary] using ih this
      | prelu =>
          have : post_op_type.sum ∈ rest := by
            rcases List.mem_cons.mp hmem with h | h
            · exact absurd h (by simp)
            · exact h
          simpa [accepted_go, post_op_entry.is_like_binary] using ih this
      | depthwise =>
          have : post_op_type.sum ∈ rest := by
            rcases List.mem_cons.mp hmem with h | h
            · exact absurd h (by simp)
            · exact h
          simpa [accepted_go, post_op_entry.is_depthwise] using ih this
      | quantization =>
          have : post_op_type.sum ∈ rest := by
            rcases List.mem_cons.mp hmem with h | h
            · exact absurd h (by simp)
            · exact h
          simpa [accepted_go, post_op_entry.is_quantization] using ih this

theorem sum_entry_check_iff (args : post_ops_ok_args_t) (ss : Rat) (szp : Int)
    (idx : Nat) (s : Rat) (z : Int) :
    sum_entry_check args ss szp idx s z = true
      ↔ ((args.sum_requires_same_params = true → s = ss ∧ z = szp)
          ∧ (args.sum_requires_scale_one = true → s = 1)
          ∧ (args.sum_requires_zp_zero = true → z = 0)
          ∧ (args.sum_at_pos_0_only = true → idx = 0)) := by
  cases h1 : args.sum_requires_same_params <;>
  cases h2 : args.sum_requires_scale_one <;>
  cases h3 : args.sum_requires_zp_zero <;>
  cases h4 : args.sum_at_pos_0_only <;>
    simp only [sum_entry_check, h1, h2, h3, h4] <;>
    split_ifs <;> simp_all

/-- Claim C3: inside `post_ops_ok`, a sum entry at position `idx` is
accepted iff it matches the canonical (first) sum scale/zero-point when the
same-params policy is active, has scale 1 when the scale-one policy is
active, zero-point 0 when the zero-point-zero policy is active, and sits at
position 0 when the sum-at-position-0 policy is active; consequently the
chain `[sum(1.0, 0), sum(2.0, 0)]`, with the other sum policies inactive,
is rejected exactly when the same-params policy is active. -/
theorem C3_sum_policy_acceptance (args : post_ops_ok_args_t) (idx : Nat)
    (s : Rat) (z : Int)
    (hmem : post_op_type.sum ∈ args.accepted_post_op_types)
    (he : args.post_ops.getD idx default = post_op_entry.sum s z) :
    (is_accepted_postop args idx = true
      ↔ ((args.sum_requires_same_params = true →
            s = canonical_sum_scale args.post_ops
              ∧ z = canonical_sum_zero_point args.post_ops)
          ∧ (args.sum_requires_scale_one = true → s = 1)
          ∧ (args.sum_requires_zp_zero = true → z = 0)
          ∧ (args.sum_at_pos_0_only = true → idx = 0)))
    ∧ (∀ sp : Bool, post_ops_ok (c3_args sp) = !sp) := by
  constructor
  · rw [is_accepted_postop, he,
      accepted_go_sum args (canonical_sum_scale args.post_ops)
        (canonical_sum_zero_point args.post_ops) idx s z
        args.accepted_post_op_types hmem]
    exact sum_entry_check_iff args _ _ idx s z
  · intro sp
    cases sp <;> decide

/-- Witness for C3 at the two-sum chain with the same-params policy on: the
mismatching second sum entry makes the whole chain rejected. -/
theorem C3_sum_policy_acceptance_witness :
    post_op_type.sum ∈ (c3_args true).accepted_post_op_types
    ∧ (c3_args true).post_ops.getD 1 default = post_op_entry.sum 2 0
    ∧ post_ops_ok (c3_args true) = false
    ∧ post_ops_ok (c3_args false) = true :=
  ⟨by decide, by decide,
   (C3_sum_policy_acceptance (c3_args true) 1 2 0 (by decide) (by decide)).2 true,
   (C3_sum_policy_acceptance (c3_args true) 1 2 0 (by decide) (by decide)).2 false⟩

theorem injector_scan_go (l : List post_op_entry) :
    ∀ (st : injector_scan_t),
    l.foldl injector_scan_step st
      = ⟨st.eltwise_count + l.countP post_op_entry.is_eltwise,
         st.depthwise_count + l.countP post_op_entry.is_depthwise,
         st.quantization_count + l.countP post_op_entry.is_quantization,
         st.is_eltwise || l.any post_op_entry.is_eltwise,
         st.is_like_binary || l.any post_op_entry.is_like_binary⟩ := by
  induction l with
  | nil => intro st; cases st; simp
  | cons e rest ih =>
      intro st
      rw [List.foldl_cons, ih]
      cases e <;>
        simp [injector_scan_step, List.countP_cons, post_op_entry.is_eltwise,
          post_op_entry.is_depthwise, post_op_entry.is_quantization,
          post_op_entry.is_like_binary] <;>
        omega

/-- Counterexample to claim C4: the single-entry chain `[sum]` is accepted
by `post_ops_ok`, construction succeeds, yet the constructor instantiates
no sub-generator at all (sum entries get none), so the sub-generator count
0 differs from the chain length 1. -/
theorem C4_counterexample :
    post_ops_ok c4_args = true
    ∧ construct_injector c4_cfg c4_args.post_ops
        = some ⟨0, 0, 0, false, false⟩
    ∧ sub_generator_count ⟨0, 0, 0, false, false⟩ = 0
    ∧ c4_args.post_ops.length = 1
    ∧ ¬ sub_generator_count ⟨0, 0, 0, false, false⟩
          = c4_args.post_ops.length := by
  refine ⟨by decide, by decide, by decide, by decide, by decide⟩

/-- Claim C4 as amended: for every chain accepted by the validity checker,
provided the static parameters do not violate the eltwise/binary
mask-register contract, construction succeeds, and the sub-generator count
equals the number of eltwise entries plus depthwise entries plus
quantization entries, plus one shared binary injector when any binary/prelu
entry is present (sum and unrecognized entries contribute none, so the
count can be smaller than the chain length). -/
theorem C4_construction_count_amended (args : post_ops_ok_args_t)
    (cfg : injector_static_config_t)
    (hok : post_ops_ok args = true)
    (hmask : mask_contract_violated cfg (injector_scan args.post_ops) = false) :
    construct_injector cfg args.post_ops = some (injector_scan args.post_ops)
    ∧ sub_generator_count (injector_scan args.post_ops)
        = args.post_ops.countP post_op_entry.is_eltwise
          + args.post_ops.countP post_op_entry.is_depthwise
          + args.post_ops.countP post_op_entry.is_quantization
          + (if args.post_ops.any post_op_entry.is_like_binary then 1 else 0) := by
  constructor
  · rw [construct_injector]
    simp [hmask]
  · rw [injector_scan, injector_scan_go, sub_generator_count]
    simp

/-- Witness for the amended C4 at the accepted chain `[sum]`. -/
theorem C4_construction_count_amended_witness :
    post_ops_ok c4_args = true
    ∧ mask_contract_violated c4_cfg (injector_scan c4_args.post_ops) = false
    ∧ construct_injector c4_cfg c4_args.post_ops
        = some (injector_scan c4_args.post_ops) :=
  ⟨by decide, by decide,
   (C4_construction_count_amended c4_args c4_cfg (by decide) (by decide)).1⟩

/-- Claim C5: the Ymm factory first forces an exact match of the requested
ISA against the fixed priority list; with no exact match it returns the
first (highest-priority) tier of the same list that `mayiuse` reports
supported; and it returns null exactly when the requested ISA is not in the
list and no listed tier is supported. -/
theorem find_chain_ymm (m : cpu_isa_t → Bool) :
    (if m .avx512_core_fp16 then some cpu_isa_t.avx512_core_fp16
     else if m .avx512_core then some cpu_isa_t.avx512_core
     else if m .avx2_vnni_2 then some cpu_isa_t.avx2_vnni_2
     else if m .avx2 then some cpu_isa_t.avx2
     else if m .avx then some cpu_isa_t.avx
     else none) = ymm_tier_list.find? m := by
  cases h1 : m .avx512_core_fp16 <;>
  cases h2 : m .avx512_core <;>
  cases h3 : m .avx2_vnni_2 <;>
  cases h4 : m .avx2 <;>
  cases h5 : m .avx <;>
    simp [ymm_tier_list, List.find?, h1, h2, h3, h4, h5]

theorem create_ymm_fallback (m : cpu_isa_t → Bool) (isa : cpu_isa_t)
    (hnot : isa ∉ ymm_tier_list) :
    create_ymm m isa = ymm_tier_list.find? m := by
  rw [← find_chain_ymm m]
  cases isa <;> first
    | exact absurd (by decide) hnot
    | simp [create_ymm]

theorem C5_dispatcher_priority (m : cpu_isa_t → Bool) (isa : cpu_isa_t) :
    (isa ∈ ymm_tier_list → create_ymm m isa = some isa)
    ∧ (isa ∉ ymm_tier_list → create_ymm m isa = ymm_tier_list.find? m)
    ∧ (create_ymm m isa = none
        ↔ isa ∉ ymm_tier_list ∧ ∀ t ∈ ymm_tier_list, m t = false) := by
  refine ⟨?_, create_ymm_fallback m isa, ?_⟩
  · intro hmem
    cases isa <;> first
      | rfl
      | exact absurd hmem (by decide)
  · by_cases hmem : isa ∈ ymm_tier_list
    · have hsome : create_ymm m isa = some isa := by
        cases isa <;> first
          | rfl
          | exact absurd hmem (by decide)
      rw [hsome]
      simp only [reduceCtorEq, false_iff, not_and]
      intro hnot
      exact absurd hmem hnot
    · rw [create_ymm_fallback m isa hmem, List.find?_eq_none]
      simp [hmem, Bool.not_eq_true]

/-- Witness for C5: sse41 is outside the Ymm tier list, and on a CPU whose
probe supports only avx2 the factory falls back to avx2, the
highest-priority supported tier. -/
theorem C5_dispatcher_priority_witness :
    cpu_isa_t.sse41 ∉ ymm_tier_list
    ∧ ymm_tier_list.find? c5_mayiuse = some cpu_isa_t.avx2
    ∧ create_ymm c5_mayiuse cpu_isa_t.sse41 = ymm_tier_list.find? c5_mayiuse :=
  ⟨by decide, by decide,
   (C5_dispatcher_priority c5_mayiuse cpu_isa_t.sse41).2.1 (by decide)⟩

theorem pp_loop_avx512_no_zero_tail (vlen : Nat) :
    ∀ (fuel len base b : Nat),
    pp_iter.tail b 0 ∉ pp_loop pp_isa.avx512_core vlen fuel len base := by
  intro fuel
  induction fuel with
  | zero =>
      intro len base b
      show pp_iter.tail b 0 ∉ pp_tail_part pp_isa.avx512_core len base
      rw [pp_tail_part]
      split
      · simp
      · intro hmem
        rename_i hlen
        rw [List.mem_singleton] at hmem
        exact hlen (by injection hmem with h1 h2; exact h2.symm)
  | succ fuel ih =>
      intro len base b
      rw [pp_loop]
      split
      · intro hmem
        rcases List.mem_cons.mp hmem with h | h
        · exact absurd h (by simp)
        · exact ih (len - vlen) (base + vlen) b h
      · show pp_iter.tail b 0 ∉ pp_tail_part pp_isa.avx512_core len base
        rw [pp_tail_part]
        split
        · simp
        · intro hmem
          rename_i hlen
          rw [List.mem_singleton] at hmem
          exact hlen (by injection hmem with h1 h2; exact h2.symm)

theorem pp_loop_zero_tail_mem (isa : pp_isa) (vlen : Nat)
    (hisa : isa ≠ pp_isa.avx512_core) (hv : 0 < vlen) :
    ∀ (fuel len base : Nat), len ≤ fuel → len % vlen = 0 →
    pp_iter.tail (base + len) 0 ∈ pp_loop isa vlen fuel len base := by
  intro fuel
  induction fuel with
  | zero =>
      intro len base hle hmod
      have hlen : len = 0 := Nat.le_zero.mp hle
      subst hlen
      show pp_iter.tail (base + 0) 0 ∈ pp_tail_part isa 0 base
      cases isa with
      | avx512_core => exact absurd rfl hisa
      | avx2 => simp [pp_tail_part]
      | sse41 => simp [pp_tail_part]
  | succ fuel ih =>
      intro len base hle hmod
      rw [pp_loop]
      split
      · rename_i hge
        have hle2 : len - vlen ≤ fuel := by omega
        have hmod2 : (len - vlen) % vlen = 0 := by
          rw [← Nat.mod_eq_sub_mod hge]
          exact hmod
        have harith : base + len = (base + vlen) + (len - vlen) := by omega
        rw [harith]
        exact List.mem_cons_of_mem _ (ih (len - vlen) (base + vlen) hle2 hmod2)
      · rename_i hlt
        have hlen : len = 0 := by
          have : len < vlen := Nat.lt_of_not_le hlt
          have := Nat.mod_eq_of_lt this
          omega
        subst hlen
        show pp_iter.tail (base + 0) 0 ∈ pp_tail_part isa 0 base
        cases isa with
        | avx512_core => exact absurd rfl hisa
        | avx2 => simp [pp_tail_part]
        | sse41 => simp [pp_tail_part]

/-- Counterexample to claim C6: with a length equal to one full vector, the
tail is reached with zero remaining elements, and on avx2 (and sse41) the
emitted code still executes a `compute(true)` iteration (with an all-zero
lane mask) instead of short-circuiting; only avx512_core branches past it. -/
theorem C6_counterexample :
    pp_kernel_trace pp_isa.avx2 8 8
        = [pp_iter.full 0, pp_iter.tail 8 0]
    ∧ pp_iter.tail 8 0 ∈ pp_kernel_trace pp_isa.avx2 8 8
    ∧ pp_kernel_trace pp_isa.sse41 4 4
        = [pp_iter.full 0, pp_iter.tail 4 0]
    ∧ pp_kernel_trace pp_isa.avx512_core 16 16 = [pp_iter.full 0] := by
  refine ⟨by decide, by decide, by decide, by decide⟩

/-- Claim C6 as amended: on avx512_core the tail with zero remaining
elements short-circuits (no tail compute iteration ever has zero active
lanes); on avx2/sse41, whenever the positive length is a multiple of the
vector width, the tail iteration still executes with zero active lanes —
but a zero-active-lane tail stores no destination element on any tier. -/
theorem C6_zero_tail_amended (vlen len : Nat) (hv : 0 < vlen) :
    (∀ b, pp_iter.tail b 0 ∉ pp_kernel_trace pp_isa.avx512_core vlen len)
    ∧ (∀ isa, isa ≠ pp_isa.avx512_core → 0 < len → len % vlen = 0 →
        pp_iter.tail len 0 ∈ pp_kernel_trace isa vlen len)
    ∧ (∀ b, iter_writes vlen (pp_iter.tail b 0) = []) := by
  refine ⟨?_, ?_, ?_⟩
  · intro b
    rw [pp_kernel_trace]
    split
    · simp
    · exact pp_loop_avx512_no_zero_tail vlen len len 0 b
  · intro isa hisa hpos hmod
    rw [pp_kernel_trace]
    split
    · omega
    · have := pp_loop_zero_tail_mem isa vlen hisa hv len len 0 le_rfl hmod
      simpa using this
  · intro b
    simp [iter_writes]

/-- Witness for the amended C6 at vector width 8 and length 16. -/
theorem C6_zero_tail_amended_witness :
    (0 : Nat) < 8
    ∧ pp_iter.tail 16 0 ∉ pp_kernel_trace pp_isa.avx512_core 8 16
    ∧ pp_iter.tail 16 0 ∈ pp_kernel_trace pp_isa.avx2 8 16 :=
  ⟨by decide,
   (C6_zero_tail_amended 8 16 (by decide)).1 16,
   (C6_zero_tail_amended 8 16 (by decide)).2.1 pp_isa.avx2 (by decide)
     (by decide) (by decide)⟩

/-- Claim C7: with vector width 8 and length 11, the emitted epilogue
performs exactly one full-width iteration (`compute(false)` at base 0) and
exactly one tail iteration (`compute(true)`) with 3 active lanes at base 8,
and the destination indices written are exactly 0..10 — nothing at or
beyond index 11. -/
theorem C7_tail_iteration_shape :
    pp_kernel_trace pp_isa.avx2 8 11
        = [pp_iter.full 0, pp_iter.tail 8 3]
    ∧ trace_writes 8 (pp_kernel_trace pp_isa.avx2 8 11) = List.range 11
    ∧ (trace_writes 8 (pp_kernel_trace pp_isa.avx2 8 11)).all
        (fun j => j < 11) = true := by
  refine ⟨by decide, by decide, by decide⟩

theorem reserved_bytes_sub_cons (b : Nat) (ops : List stack_op) :
    reserved_bytes (stack_op.sub_rsp b :: ops) = b + reserved_bytes ops := rfl

theorem released_bytes_add_cons (b : Nat) (ops : List stack_op) :
    released_bytes (stack_op.add_rsp b :: ops) = b + released_bytes ops := rfl

theorem copied_slots_sub_cons (b : Nat) (ops : List stack_op) :
    copied_slots (stack_op.sub_rsp b :: ops) = copied_slots ops := rfl

theorem stack_delta_cons (o : stack_op) (ops : List stack_op) :
    stack_delta (o :: ops) = stack_op_delta o + stack_delta ops := by
  simp [stack_delta]

theorem reserved_bytes_copies (L : List Nat) :
    reserved_bytes (L.map stack_op.copy_slot) = 0 := by
  induction L with
  | nil => rfl
  | cons a L ih => simpa [reserved_bytes] using ih

theorem stack_delta_copies (L : List Nat) :
    stack_delta (L.map stack_op.copy_slot) = 0 := by
  induction L with
  | nil => rfl
  | cons a L ih => simpa [stack_delta, stack_op_delta] using ih

theorem copied_slots_copies (L : List Nat) :
    copied_slots (L.map stack_op.copy_slot) = L := by
  induction L with
  | nil => rfl
  | cons a L ih => simpa [copied_slots] using ih

/-- Claim C8: for a chain with N depthwise/quantization entries the
acquisition reserves exactly N * sizeof(float*) = N * 8 bytes and copies one
auxiliary-table pointer into each of the N slots, the release returns
exactly the same byte count, the net `rsp` effect of acquisition followed by
release is zero, and with N = 0 neither emits any stack adjustment. -/
theorem C8_stack_balance (l : List post_op_entry) :
    reserved_bytes (push_post_ops_data_on_stack l)
        = post_ops_pointers_count l * 8
    ∧ released_bytes (reset_stack_pointer l)
        = post_ops_pointers_count l * 8
    ∧ copied_slots (push_post_ops_data_on_stack l)
        = List.range (post_ops_pointers_count l)
    ∧ stack_delta (push_post_ops_data_on_stack l ++ reset_stack_pointer l) = 0
    ∧ (post_ops_pointers_count l = 0 →
        push_post_ops_data_on_stack l = [] ∧ reset_stack_pointer l = []) := by
  by_cases hn : post_ops_pointers_count l = 0
  · refine ⟨?_, ?_, ?_, ?_, fun _ => ⟨?_, ?_⟩⟩ <;>
      simp [push_post_ops_data_on_stack, reset_stack_pointer, hn,
        reserved_bytes, released_bytes, copied_slots, stack_delta]
  · refine ⟨?_, ?_, ?_, ?_, fun h => absurd h hn⟩
    · simp only [push_post_ops_data_on_stack, if_pos hn,
        reserved_bytes_sub_cons, reserved_bytes_copies, Nat.add_zero]
    · simp only [reset_stack_pointer, if_pos hn, released_bytes_add_cons]
      simp [released_bytes]
    · simp only [push_post_ops_data_on_stack, if_pos hn,
        copied_slots_sub_cons, copied_slots_copies]
    · rw [stack_delta, List.map_append, List.sum_append,
        ← stack_delta, ← stack_delta]
      simp only [push_post_ops_data_on_stack, reset_stack_pointer, if_pos hn,
        stack_delta_cons, stack_delta_copies]
      simp [stack_delta, stack_op_delta]

/-- Witness for C8 at the empty chain (N = 0) and a mixed chain (N = 2). -/
theorem C8_stack_balance_witness :
    post_ops_pointers_count ([] : List post_op_entry) = 0
    ∧ push_post_ops_data_on_stack ([] : List post_op_entry) = []
    ∧ reset_stack_pointer ([] : List post_op_entry) = []
    ∧ post_ops_pointers_count c8_chain * 8 = 16
    ∧ reserved_bytes (push_post_ops_data_on_stack c8_chain)
        = post_ops_pointers_count c8_chain * 8 :=
  ⟨by decide,
   ((C8_stack_balance []).2.2.2.2 (by decide)).1,
   ((C8_stack_balance []).2.2.2.2 (by decide)).2,
   by decide,
   (C8_stack_balance c8_chain).1⟩

theorem foldr_max_shift (L : List Nat) :
    ∀ (a b : Nat), L.foldr max (max a b) = max a (L.foldr max b) := by
  induction L with
  | nil => intro a b; rfl
  | cons x L ih =>
      intro a b
      show max x (L.foldr max (max a b)) = max a (max x (L.foldr max b))
      rw [ih a b, Nat.max_left_comm]

theorem is_superset_sse41 (isa : cpu_isa_t) :
    is_superset isa cpu_isa_t.sse41 = true := by
  cases isa <;> rfl

theorem aux_vec_count_go_eq (cnt : cpu_isa_t → Nat → Bool → Rat → Nat)
    (isa : cpu_isa_t) (fwd : Bool) :
    ∀ (l : List post_op_entry) (res : Nat),
    aux_vec_count_go cnt isa fwd l res
      = (eltwise_aux_list cnt isa fwd l).foldr max res := by
  intro l
  induction l with
  | nil => intro res; rfl
  | cons e rest ih =>
      intro res
      cases e with
      | eltwise alg alpha beta =>
          by_cases h1 : is_superset isa cpu_isa_t.avx512_core = true
          · simp only [aux_vec_count_go, eltwise_aux_list, eltwise_tier,
              List.filterMap_cons, if_pos h1]
            rw [ih, List.foldr_cons, Nat.max_comm res, foldr_max_shift]
            simp only [eltwise_aux_list, eltwise_tier, if_pos h1]
          · by_cases h2 : is_superset isa cpu_isa_t.avx2 = true
            · simp only [aux_vec_count_go, eltwise_aux_list, eltwise_tier,
                List.filterMap_cons, if_neg h1, if_pos h2]
              rw [ih, List.foldr_cons, Nat.max_comm res, foldr_max_shift]
              simp only [eltwise_aux_list, eltwise_tier, if_neg h1, if_pos h2]
            · have h3 := is_superset_sse41 isa
              simp only [aux_vec_count_go, eltwise_aux_list, eltwise_tier,
                List.filterMap_cons, if_neg h1, if_neg h2, if_pos h3]
              rw [ih, List.foldr_cons, Nat.max_comm res, foldr_max_shift]
              simp only [eltwise_aux_list, eltwise_tier, if_neg h1, if_neg h2]
      | sum s z => exact ih res
      | binary a => exact ih res
      | prelu => exact ih res
      | depthwise a m => exact ih res
      | quantization a m => exact ih res
      | other k => exact ih res

/-- Claim C10: `aux_vec_count` equals the maximum over the chain's eltwise
entries of the per-entry eltwise auxiliary-vector count, evaluated at the
highest tier among avx512_core, avx2, sse41 of which the given ISA is a
superset; a chain with no eltwise entry yields 0, and inserting or removing
a non-eltwise entry never changes the result. -/
theorem C10_aux_vec_count (cnt : cpu_isa_t → Nat → Bool → Rat → Nat)
    (isa : cpu_isa_t) (fwd : Bool) (chain : List post_op_entry) :
    aux_vec_count cnt chain isa fwd
        = (eltwise_aux_list cnt isa fwd chain).foldr max 0
    ∧ (chain.all (fun e => !e.is_eltwise) = true →
        aux_vec_count cnt chain isa fwd = 0)
    ∧ (∀ (l1 l2 : List post_op_entry) (e : post_op_entry),
        e.is_eltwise = false →
        aux_vec_count cnt (l1 ++ e :: l2) isa fwd
          = aux_vec_count cnt (l1 ++ l2) isa fwd)
    ∧ is_superset isa (eltwise_tier isa) = true
    ∧ (∀ u, u ∈ [cpu_isa_t.avx512_core, cpu_isa_t.avx2, cpu_isa_t.sse41] →
        is_superset isa u = true →
        cpu_isa_rank u ≤ cpu_isa_rank (eltwise_tier isa)) := by
  refine ⟨?_, ?_, ?_, ?_, ?_⟩
  · exact aux_vec_count_go_eq cnt isa fwd chain 0
  · intro hall
    rw [aux_vec_count, aux_vec_count_go_eq]
    have hnil : eltwise_aux_list cnt isa fwd chain = [] := by
      rw [eltwise_aux_list, List.filterMap_eq_nil_iff]
      intro a ha
      have := List.all_eq_true.mp hall a ha
      cases a <;> simp_all [post_op_entry.is_eltwise]
    rw [hnil]
    rfl
  · intro l1 l2 e he
    rw [aux_vec_count, aux_vec_count, aux_vec_count_go_eq,
      aux_vec_count_go_eq]
    have hsame : eltwise_aux_list cnt isa fwd (l1 ++ e :: l2)
        = eltwise_aux_list cnt isa fwd (l1 ++ l2) := by
      rw [eltwise_aux_list, eltwise_aux_list, List.filterMap_append,
        List.filterMap_append, List.filterMap_cons]
      cases e <;> simp_all [post_op_entry.is_eltwise]
    rw [hsame]
  · cases isa <;> rfl
  · cases isa <;> decide

/-- Witness for C10: inserting the non-eltwise entry `other 7` leaves the
count unchanged, and an eltwise-free chain counts 0. -/
theorem C10_aux_vec_count_witness :
    (post_op_entry.other 7).is_eltwise = false
    ∧ aux_vec_count c10_cnt
        ([] ++ post_op_entry.other 7 :: [post_op_entry.eltwise 5 0 0])
        cpu_isa_t.avx2 true
      = aux_vec_count c10_cnt ([] ++ [post_op_entry.eltwise 5 0 0])
          cpu_isa_t.avx2 true
    ∧ ([post_op_entry.depthwise alg_kind.depthwise_prelu 4].all
        (fun e => !e.is_eltwise)) = true
    ∧ aux_vec_count c10_cnt
        [post_op_entry.depthwise alg_kind.depthwise_prelu 4]
        cpu_isa_t.avx2 true = 0 :=
  ⟨by decide,
   (C10_aux_vec_count c10_cnt cpu_isa_t.avx2 true
      [post_op_entry.other 7, post_op_entry.eltwise 5 0 0]).2.2.1 []
     [post_op_entry.eltwise 5 0 0] (post_op_entry.other 7) (by decide),
   by decide,
   (C10_aux_vec_count c10_cnt cpu_isa_t.avx2 true
      [post_op_entry.depthwise alg_kind.depthwise_prelu 4]).2.1 (by decide)⟩
